import Mathlib

/-!
Shallow embedding of the review dispatch and access reconciliation engine
of the trading bot (src/bot/main.py, src/bot/database.py), together with
theorems settling the specification claims about it.

Python strings are embedded as lists of characters, byte strings as lists
of naturals, and Python dicts as association lists.  Machine integers are
embedded as unbounded Int/Nat, which matches Python semantics.
-/

namespace TradeBot

/-- Embedding of a Python string as a list of characters. -/
abbrev PyStr := List Char

/-- Whitespace recognised by Python str.strip / int (ASCII subset). -/
def isPySpace (c : Char) : Bool :=
  c == ' ' || c == '\t' || c == '\n' || c == '\r' || c == Char.ofNat 11 || c == Char.ofNat 12

/-- Embedding of Python str.strip: drop whitespace from both ends. -/
def pyStrip (cs : PyStr) : PyStr :=
  ((cs.dropWhile isPySpace).reverse.dropWhile isPySpace).reverse

/-- Embedding of Python str.lower on ASCII letters. -/
def pyLower (cs : PyStr) : PyStr :=
  cs.map fun c => if 65 ≤ c.toNat ∧ c.toNat ≤ 90 then Char.ofNat (c.toNat + 32) else c

/-- Embedding of Python str.split(sep) for a single-character separator:
splits at every occurrence, keeping empty pieces. -/
def splitChar (sep : Char) : PyStr → List PyStr
  | [] => [[]]
  | c :: rest =>
    if c = sep then [] :: splitChar sep rest
    else
      match splitChar sep rest with
      | [] => [[c]]
      | p :: ps => (c :: p) :: ps

/-- Little-endian base-10 digits with explicit fuel, so that evaluation
reduces inside the kernel; agrees with Nat.digits 10 when the fuel is at
least the number (see natDigitsLE_eq_digits). -/
def natDigitsLE : Nat → Nat → List Nat
  | 0, _ => []
  | _ + 1, 0 => []
  | fuel + 1, n + 1 => ((n + 1) % 10) :: natDigitsLE fuel ((n + 1) / 10)

/-- Decimal digit string of a natural number, most significant digit first,
as produced by Python str on a non-negative int. -/
def natDecimal (n : Nat) : PyStr :=
  if n = 0 then ['0'] else ((natDigitsLE n n).map Nat.digitChar).reverse

/-- Decimal string of an integer, as produced by Python str on an int. -/
def intDecimal (i : Int) : PyStr :=
  if i < 0 then '-' :: natDecimal i.natAbs else natDecimal i.natAbs

/-- Value of a non-empty all-digit string, little-endian via Nat.ofDigits. -/
def parseDigitsNat (cs : PyStr) : Option Nat :=
  if cs ≠ [] ∧ cs.all Char.isDigit then
    some (Nat.ofDigits 10 ((cs.map fun c => c.toNat - 48).reverse))
  else none

/-- Embedding of Python int(str): strips whitespace, accepts an optional
sign followed by at least one digit, otherwise fails (raises, embedded as
none). -/
def pyParseInt (cs : PyStr) : Option Int :=
  match pyStrip cs with
  | [] => none
  | c :: rest =>
    if c = '-' then (parseDigitsNat rest).map fun n => -(n : Int)
    else if c = '+' then (parseDigitsNat rest).map fun n => (n : Int)
    else (parseDigitsNat (c :: rest)).map fun n => (n : Int)

/-- Zero padding of Python format spec 0Nd: pad with leading zeros up to
width w. -/
def zfill (w : Nat) (cs : PyStr) : PyStr :=
  List.replicate (w - cs.length) '0' ++ cs

/-- Embedding of local_ticket_seed_number (src/bot/main.py lines 94-100):
base-33 polynomial rolling hash of the seed mod 9000000, floor-shifted
into the 7-digit range. -/
def local_ticket_seed_number (seed : PyStr) : Nat :=
  let h := seed.foldl (fun h ch => (h * 33 + ch.toNat) % 9000000) 0
  if h < 1000000 then h + 1000000 else h

/-- Numeric value computed by normalize_local_ticket_number
(src/bot/main.py lines 103-113) before formatting: absolute value of the
input, hash fallback at zero, reduction mod 10000000 with a second hash
fallback at zero, and a final shift into the 7-digit range. -/
def normalize_value (value : Int) (seed : PyStr) : Nat :=
  let v1 : Int := if value < 0 then -value else value
  let v2 : Nat := if v1 ≤ 0 then local_ticket_seed_number seed else v1.toNat
  let v3 : Nat := v2 % 10000000
  let v4 : Nat := if v3 ≤ 0 then local_ticket_seed_number seed % 10000000 else v3
  if v4 < 1000000 then v4 + 1000000 else v4

/-- Embedding of normalize_local_ticket_number (src/bot/main.py lines
103-114): the numeric value above rendered by the format string 07d. -/
def normalize_local_ticket_number (value : Int) (seed : PyStr) : PyStr :=
  zfill 7 (natDecimal (normalize_value value seed))

/-- Embedding of local_ticket_seed_letters (src/bot/main.py lines
117-123): base-131 rolling hash mod 676 split into two base-26 digits
mapped to lowercase letters. -/
def local_ticket_seed_letters (seed : PyStr) : PyStr :=
  let h := seed.foldl (fun h ch => (h * 131 + ch.toNat) % (26 * 26)) 0
  [Char.ofNat (97 + (h / 26) % 26), Char.ofNat (97 + h % 26)]

/-- Embedding of format_deposit_ticket (src/bot/main.py lines 126-129). -/
def format_deposit_ticket (ticket_no : Int) (request_id : PyStr) : PyStr :=
  let digits := normalize_local_ticket_number ticket_no request_id
  let letters := local_ticket_seed_letters
    ("real_deposit:".toList ++ intDecimal ticket_no ++ ":".toList ++ request_id)
  "BXdep".toList ++ digits ++ letters

/-- Embedding of format_kyc_ticket (src/bot/main.py lines 132-135). -/
def format_kyc_ticket (ticket_no : Int) (request_id : PyStr) : PyStr :=
  let digits := normalize_local_ticket_number ticket_no request_id
  let letters := local_ticket_seed_letters
    ("kyc:".toList ++ intDecimal ticket_no ++ ":".toList ++ request_id)
  "BXkyc".toList ++ digits ++ letters

/-- Embedding of parse_chat_id (src/bot/main.py lines 138-143): strip and
parse as an int, with failure and the zero value both mapped to none. -/
def parse_chat_id (raw : PyStr) : Option Int :=
  match pyParseInt raw with
  | none => none
  | some value => if value = 0 then none else some value

/-! ## Access reconciliation (src/bot/main.py, sync_deposit_review_chat_access_once) -/

/-- A reviewer rights snapshot: a Python dict from telegram id to the
deposit_review right, embedded as an association list whose keys are
unique (dict semantics). -/
abbrev Snapshot := List (Int × Bool)

/-- Dict lookup on a snapshot (first matching key). -/
def snapLookup (snap : Snapshot) (uid : Int) : Option Bool :=
  (snap.find? fun p => p.1 == uid).map Prod.snd

/-- Key set of a snapshot. -/
def snapKeys (snap : Snapshot) : Finset Int :=
  (snap.map Prod.fst).toFinset

/-- Revoke and restore sets computed by one reconciliation pass,
embedding src/bot/main.py lines 201-216 of
sync_deposit_review_chat_access_once: a full scan over the current
snapshot when the chat id changed, an incremental diff against the
previous snapshot otherwise, and in both cases the identities that left
the admin set are added to the revoke set. -/
def access_sync_sets (chat_id last_chat_id : Int) (last current : Snapshot) :
    Finset Int × Finset Int :=
  let force_full_scan := chat_id ≠ last_chat_id
  let revoke_base : Finset Int :=
    if force_full_scan then
      ((current.filter fun p => !p.2).map Prod.fst).toFinset
    else
      ((current.filter fun p =>
        !p.2 && (match snapLookup last p.1 with
                 | none => true
                 | some prev_allowed => prev_allowed)).map Prod.fst).toFinset
  let restore_ids : Finset Int :=
    if force_full_scan then
      ((current.filter fun p => p.2).map Prod.fst).toFinset
    else
      ((current.filter fun p =>
        p.2 && (match snapLookup last p.1 with
                | none => true
                | some prev_allowed => !prev_allowed)).map Prod.fst).toFinset
  let removed_from_admins : Finset Int := snapKeys last \ snapKeys current
  (revoke_base ∪ removed_from_admins, restore_ids)

/-! ## Review dispatch (src/bot/main.py, dispatch_pending_deposit_reviews /
dispatch_pending_kyc_reviews; src/bot/database.py, the mark functions) -/

/-- Claimable state of one review request row in the backing store: the
columns the conditional claim update reads and writes. -/
structure ReviewRequestState where
  status : PyStr
  review_message_chat_id : Option Int
  review_message_id : Option Int
deriving DecidableEq, Repr

/-- One review table of the backing store: request id to row state. -/
abbrev ReviewDb := List (PyStr × ReviewRequestState)

/-- Lookup of a request row by id (ids are unique keys). -/
def dbLookup : ReviewDb → PyStr → Option ReviewRequestState
  | [], _ => none
  | p :: ps, request_id =>
    if p.1 = request_id then some p.2 else dbLookup ps request_id

/-- The SET clause of the claim update: record where the review message
was published. -/
def dbSetDispatched (db : ReviewDb) (request_id : PyStr) (chat_id message_id : Int) : ReviewDb :=
  db.map fun p =>
    if p.1 = request_id then
      (p.1, { p.2 with review_message_chat_id := some chat_id,
                       review_message_id := some message_id })
    else p

/-- Embedding of Database.mark_deposit_review_dispatched
(src/bot/database.py lines 184-204): conditional UPDATE that succeeds
exactly when the row still has status pending and a NULL
review_message_id; returns whether a row was affected, with the updated
table. -/
def mark_deposit_review_dispatched (db : ReviewDb) (request_id : PyStr)
    (chat_id message_id : Int) : Bool × ReviewDb :=
  match dbLookup db request_id with
  | none => (false, db)
  | some row =>
    if row.status = "pending".toList ∧ row.review_message_id = none then
      (true, dbSetDispatched db request_id chat_id message_id)
    else (false, db)

/-- Embedding of Database.mark_kyc_review_dispatched
(src/bot/database.py lines 241-261): same conditional UPDATE on the KYC
review table. -/
def mark_kyc_review_dispatched (db : ReviewDb) (request_id : PyStr)
    (chat_id message_id : Int) : Bool × ReviewDb :=
  match dbLookup db request_id with
  | none => (false, db)
  | some row =>
    if row.status = "pending".toList ∧ row.review_message_id = none then
      (true, dbSetDispatched db request_id chat_id message_id)
    else (false, db)

/-- One fetched pending review row, restricted to the fields that drive
the dispatch control flow (caption rendering is out of scope and elided). -/
structure FetchedReview where
  id : PyStr
  ticket_no : Int
  proof_blob : List Nat
  proof_file_name : PyStr
deriving DecidableEq, Repr

/-- Observable steps taken during a dispatch pass, in order. -/
inductive DispatchEvent where
  | skippedEmptyId : DispatchEvent
  | skippedEmptyBlob (request_id : PyStr) : DispatchEvent
  | publishFailed (request_id : PyStr) : DispatchEvent
  | sentDocument (request_id : PyStr) (document_name ticket : PyStr)
      (chat_id message_id : Int) : DispatchEvent
  | claimOk (request_id : PyStr) : DispatchEvent
  | claimSkipped (request_id : PyStr) : DispatchEvent
deriving DecidableEq, Repr

/-- Result of a dispatch pass: the dispatched counter the pass returns,
the review table after all claim attempts, and the event trace. -/
structure DispatchOutcome where
  dispatched : Nat
  db : ReviewDb
  events : List DispatchEvent
deriving DecidableEq, Repr

/-- The Telegram publish call, embedded as an oracle from the row to the
result of bot.send_document: none when the call raises (the per-item
except path), otherwise the chat id and message id of the sent message. -/
abbrev SendOracle := FetchedReview → Option (Int × Int)

/-- The per-item loop body of dispatch_pending_deposit_reviews
(src/bot/main.py lines 555-592): skip on empty id, skip on empty proof
blob before publishing, publish, then attempt the conditional claim,
counting only successful claims. -/
def dispatch_deposit_items (send : SendOracle) (db : ReviewDb) :
    List FetchedReview → DispatchOutcome
  | [] => ⟨0, db, []⟩
  | req :: rest =>
    let request_id := pyStrip req.id
    if request_id = [] then
      let r := dispatch_deposit_items send db rest
      ⟨r.dispatched, r.db, .skippedEmptyId :: r.events⟩
    else if req.proof_blob = [] then
      let r := dispatch_deposit_items send db rest
      ⟨r.dispatched, r.db, .skippedEmptyBlob request_id :: r.events⟩
    else
      let ticket := format_deposit_ticket req.ticket_no request_id
      let proof_name :=
        if pyStrip req.proof_file_name = [] then "deposit-proof.bin".toList
        else pyStrip req.proof_file_name
      match send req with
      | none =>
        let r := dispatch_deposit_items send db rest
        ⟨r.dispatched, r.db, .publishFailed request_id :: r.events⟩
      | some (sent_chat_id, sent_message_id) =>
        let claim := mark_deposit_review_dispatched db request_id sent_chat_id sent_message_id
        let r := dispatch_deposit_items send claim.2 rest
        if claim.1 then
          ⟨r.dispatched + 1, r.db,
            .sentDocument request_id proof_name ticket sent_chat_id sent_message_id ::
              .claimOk request_id :: r.events⟩
        else
          ⟨r.dispatched, r.db,
            .sentDocument request_id proof_name ticket sent_chat_id sent_message_id ::
              .claimSkipped request_id :: r.events⟩

/-- Embedding of dispatch_pending_deposit_reviews (src/bot/main.py lines
545-592): resolve the destination chat, short-circuit to zero when none
is configured, otherwise process the fetched batch. -/
def dispatch_pending_deposit_reviews (deposit_chat_raw : PyStr)
    (pending : List FetchedReview) (db : ReviewDb) (send : SendOracle) : DispatchOutcome :=
  match parse_chat_id deposit_chat_raw with
  | none => ⟨0, db, []⟩
  | some _ =>
    if pending = [] then ⟨0, db, []⟩
    else dispatch_deposit_items send db pending

/-- The per-item loop body of dispatch_pending_kyc_reviews
(src/bot/main.py lines 605-642): same control flow as the deposit pass,
with the KYC ticket code, default document name, and KYC claim update. -/
def dispatch_kyc_items (send : SendOracle) (db : ReviewDb) :
    List FetchedReview → DispatchOutcome
  | [] => ⟨0, db, []⟩
  | req :: rest =>
    let request_id := pyStrip req.id
    if request_id = [] then
      let r := dispatch_kyc_items send db rest
      ⟨r.dispatched, r.db, .skippedEmptyId :: r.events⟩
    else if req.proof_blob = [] then
      let r := dispatch_kyc_items send db rest
      ⟨r.dispatched, r.db, .skippedEmptyBlob request_id :: r.events⟩
    else
      let ticket := format_kyc_ticket req.ticket_no request_id
      let proof_name :=
        if pyStrip req.proof_file_name = [] then "kyc-proof.bin".toList
        else pyStrip req.proof_file_name
      match send req with
      | none =>
        let r := dispatch_kyc_items send db rest
        ⟨r.dispatched, r.db, .publishFailed request_id :: r.events⟩
      | some (sent_chat_id, sent_message_id) =>
        let claim := mark_kyc_review_dispatched db request_id sent_chat_id sent_message_id
        let r := dispatch_kyc_items send claim.2 rest
        if claim.1 then
          ⟨r.dispatched + 1, r.db,
            .sentDocument request_id proof_name ticket sent_chat_id sent_message_id ::
              .claimOk request_id :: r.events⟩
        else
          ⟨r.dispatched, r.db,
            .sentDocument request_id proof_name ticket sent_chat_id sent_message_id ::
              .claimSkipped request_id :: r.events⟩

/-- Embedding of dispatch_pending_kyc_reviews (src/bot/main.py lines
595-642). -/
def dispatch_pending_kyc_reviews (kyc_chat_raw : PyStr)
    (pending : List FetchedReview) (db : ReviewDb) (send : SendOracle) : DispatchOutcome :=
  match parse_chat_id kyc_chat_raw with
  | none => ⟨0, db, []⟩
  | some _ =>
    if pending = [] then ⟨0, db, []⟩
    else dispatch_kyc_items send db pending

/-! ## Listener loop (src/bot/main.py, review_listener_loop) -/

/-- Listener-owned health fields touched by one loop iteration. -/
structure ListenerHealth where
  listener_connected : Bool
  last_listener_error : PyStr
deriving DecidableEq, Repr

/-- State carried across iterations of review_listener_loop: the
listener_online flag and the health fields. -/
structure ListenerState where
  listener_online : Bool
  health : ListenerHealth
deriving DecidableEq, Repr

/-- One iteration of the body of review_listener_loop (src/bot/main.py
lines 724-755), before the retry wait: when the listener connection is
already alive nothing happens; otherwise a connect is attempted, and on
success both the dispatch and the access events are set once each, while
on failure neither is set and the error is recorded.  The two naturals
count how many times dispatch_event.set and access_event.set ran. -/
def review_listener_iteration (st : ListenerState) (alive connect_ok : Bool) :
    ListenerState × Nat × Nat :=
  if alive then (st, 0, 0)
  else if connect_ok then
    (⟨true, ⟨true, []⟩⟩, 1, 1)
  else
    (⟨false, ⟨false, "listener_connect_failed".toList⟩⟩, 0, 0)

/-- Several iterations of review_listener_loop, accumulating the number
of dispatch-signal and access-signal raises over the whole run. -/
def review_listener_run (st : ListenerState) :
    List (Bool × Bool) → ListenerState × Nat × Nat
  | [] => (st, 0, 0)
  | (alive, ok) :: rest =>
    let step := review_listener_iteration st alive ok
    let r := review_listener_run step.1 rest
    (r.1, step.2.1 + r.2.1, step.2.2 + r.2.2)

/-! ## Panel action callbacks (src/bot/main.py lines 250-274) -/

/-- Embedding of panel_action_callback (src/bot/main.py lines 250-254):
encode a panel management action as a colon-separated callback string,
defaulting a zero duration to 3600 and clamping below at 60. -/
def panel_action_callback (action token_type : PyStr)
    (telegram_id duration_seconds : Int) : PyStr :=
  let action_short := if action = "regen".toList then "rg".toList else "dl".toList
  let kind_short := if token_type = "owner".toList then "o".toList else "a".toList
  let safe_duration := max 60 (if duration_seconds = 0 then 3600 else duration_seconds)
  "pt:".toList ++ action_short ++ ":".toList ++ kind_short ++ ":".toList ++
    intDecimal telegram_id ++ ":".toList ++ intDecimal safe_duration

/-- Embedding of parse_panel_action_callback (src/bot/main.py lines
257-274): split the callback string on colons, require five parts headed
by pt, parse the numeric fields, validate the short action and kind
codes, and clamp the duration below at 60. -/
def parse_panel_action_callback (raw : PyStr) :
    Option (PyStr × PyStr × Int × Int) :=
  match splitChar ':' (pyStrip raw) with
  | [p0, p1, p2, p3, p4] =>
    if p0 = "pt".toList then
      let action_short := pyLower (pyStrip p1)
      let kind_short := pyLower (pyStrip p2)
      match pyParseInt p3, pyParseInt p4 with
      | some telegram_id, some duration_seconds =>
        if action_short = "rg".toList ∨ action_short = "dl".toList then
          if kind_short = "o".toList ∨ kind_short = "a".toList then
            some
              (if action_short = "rg".toList then "regen".toList else "delete".toList,
               if kind_short = "o".toList then "owner".toList else "admin".toList,
               telegram_id,
               max 60 duration_seconds)
          else none
        else none
      | _, _ => none
    else none
  | _ => none

/-- Recogniser for successful-claim events. -/
def DispatchEvent.isClaimOk : DispatchEvent → Bool
  | .claimOk _ => true
  | _ => false

/-- Counting predicate for successful-claim events of a given request. -/
def isClaimOkFor (rid : PyStr) : DispatchEvent → Bool
  | .claimOk r => r == rid
  | _ => false

/-- A row is still claimable: it exists, its status is pending and its
review_message_id is NULL.  This is exactly the WHERE clause of the
conditional claim update. -/
def claimable (db : ReviewDb) (request_id : PyStr) : Prop :=
  ∃ row, dbLookup db request_id = some row ∧
    row.status = "pending".toList ∧ row.review_message_id = none

/-- The 7-digit ticket body as claim C6 words it: a non-positive seed is
replaced by the request-id hash (base-33 rolling hash mod 9000000,
floor-shifted into the 7-digit range), otherwise the seed mod 10000000,
shifted up by 1000000 when below 1000000.  Stated from the claim text,
for comparison against normalize_local_ticket_number. -/
def claimC6_body (value : Int) (seed : PyStr) : PyStr :=
  if value ≤ 0 then
    zfill 7 (natDecimal (local_ticket_seed_number seed))
  else
    let v := (value % 10000000).toNat
    zfill 7 (natDecimal (if v < 1000000 then v + 1000000 else v))

/-- The 7-digit ticket body as amended: the seed is first replaced by its
absolute value; the request-id hash substitutes only when that absolute
value is zero; after reduction mod 10000000 a zero residue falls back to
the hash mod 10000000; finally values below 1000000 are shifted up by
1000000.  Stated from the amended claim text, for comparison against
normalize_local_ticket_number. -/
def amendedC6_body (value : Int) (seed : PyStr) : PyStr :=
  let a := value.natAbs
  let base := if a = 0 then local_ticket_seed_number seed else a
  let m := base % 10000000
  let m2 := if m = 0 then local_ticket_seed_number seed % 10000000 else m
  zfill 7 (natDecimal (if m2 < 1000000 then m2 + 1000000 else m2))

/-! ## Theorems -/

lemma normalize_value_eq_amended (value : Int) (seed : PyStr) :
    normalize_value value seed =
      (let a := value.natAbs
       let base := if a = 0 then local_ticket_seed_number seed else a
       let m := base % 10000000
       let m2 := if m = 0 then local_ticket_seed_number seed % 10000000 else m
       if m2 < 1000000 then m2 + 1000000 else m2) := by
  unfold normalize_value
  dsimp only
  generalize local_ticket_seed_number seed = H
  split_ifs <;> omega

/-- Claim C4: on an incremental pass (same channel id), previous snapshot
A allowed and B disallowed, current snapshot A disallowed, B allowed and
C allowed, the revoke set is exactly A, the restore set exactly B and C,
and the two sets are disjoint. -/
theorem spec2proof_c4 (c : Int) :
    access_sync_sets c c [(1, true), (2, false)] [(1, false), (2, true), (3, true)] =
        ({1}, {2, 3})
      ∧ Disjoint
          (access_sync_sets c c [(1, true), (2, false)] [(1, false), (2, true), (3, true)]).1
          (access_sync_sets c c [(1, true), (2, false)] [(1, false), (2, true), (3, true)]).2 := by
  have h : access_sync_sets c c [(1, true), (2, false)] [(1, false), (2, true), (3, true)] =
      ({1}, {2, 3}) := by
    unfold access_sync_sets
    simp only [ne_eq, not_true_eq_false, if_false, ite_false]
    decide
  refine ⟨h, ?_⟩
  rw [h]
  decide

/-- Claim C2, counterexample: with a changed channel id, previous
snapshot containing identity 7 and an empty current snapshot, the
revoke set is not the set of currently-disallowed identities (which is
empty): the identity removed from the admin set is revoked as well, so
the previous snapshot is not ignored. -/
theorem spec2proof_c2_counterexample :
    (access_sync_sets 1 2 [(7, true)] []).1 ≠
      ((([] : Snapshot).filter fun p => !p.2).map Prod.fst).toFinset := by
  decide

/-- Claim C2 as amended: when the resolved channel id differs from the
previous pass, the restore set is exactly the currently-allowed
identities, and the revoke set is the currently-disallowed identities
together with the identities of the previous snapshot that are absent
from the current one; apart from that removed-identity contribution the
previous snapshot is ignored. -/
theorem spec2proof_c2 (chat_id last_chat_id : Int) (last current : Snapshot)
    (h : chat_id ≠ last_chat_id) :
    (access_sync_sets chat_id last_chat_id last current).1 =
        ((current.filter fun p => !p.2).map Prod.fst).toFinset ∪
          (snapKeys last \ snapKeys current)
      ∧ (access_sync_sets chat_id last_chat_id last current).2 =
        ((current.filter fun p => p.2).map Prod.fst).toFinset := by
  constructor
  · simp only [access_sync_sets, if_pos h]
  · simp only [access_sync_sets, if_pos h]

/-- Witness for spec2proof_c2 at a concrete changed-channel input. -/
theorem spec2proof_c2_witness :
    (access_sync_sets 1 2 [(7, true)] [(3, false)]).1 =
        ((([(3, false)] : Snapshot).filter fun p => !p.2).map Prod.fst).toFinset ∪
          (snapKeys [(7, true)] \ snapKeys [(3, false)])
      ∧ (access_sync_sets 1 2 [(7, true)] [(3, false)]).2 =
        ((([(3, false)] : Snapshot).filter fun p => p.2).map Prod.fst).toFinset :=
  spec2proof_c2 1 2 [(7, true)] [(3, false)] (by decide)

/-- Claim C6, counterexample: for the negative seed -5 with request id x,
the code first takes the absolute value and produces body 1000005, while
the claim prescribes the request-id hash, which gives body 1000120; so a
non-positive seed is not always replaced by the hash. -/
theorem spec2proof_c6_counterexample :
    normalize_local_ticket_number (-5) ['x'] ≠ claimC6_body (-5) ['x'] := by
  decide

/-- Claim C6 as amended: the seed is first replaced by its absolute
value; only a zero absolute value is replaced by the request-id hash;
the value is then reduced mod 10000000, a zero residue falling back to
the hash mod 10000000; finally values below 1000000 are shifted up by
1000000. -/
theorem spec2proof_c6 (value : Int) (seed : PyStr) :
    normalize_local_ticket_number value seed = amendedC6_body value seed := by
  unfold normalize_local_ticket_number amendedC6_body
  rw [normalize_value_eq_amended]

lemma snapshot_value_unique : ∀ (current : Snapshot),
    (current.map Prod.fst).Nodup →
    ∀ (u : Int) (a b : Bool), (u, a) ∈ current → (u, b) ∈ current → a = b := by
  intro current
  induction current with
  | nil => intro _ u a b ha; cases ha
  | cons p ps ih =>
    intro h u a b ha hb
    simp only [List.map_cons, List.nodup_cons] at h
    obtain ⟨hnot, hnd⟩ := h
    rcases List.mem_cons.mp ha with h1 | h1
    · subst h1
      rcases List.mem_cons.mp hb with h2 | h2
      · injection h2 with _ h2v
        exact h2v.symm
      · exact absurd (by simpa using List.mem_map_of_mem Prod.fst h2) hnot
    · rcases List.mem_cons.mp hb with h2 | h2
      · subst h2
        exact absurd (by simpa using List.mem_map_of_mem Prod.fst h1) hnot
      · exact ih hnd u a b h1 h2

lemma snapKeys_mem (snap : Snapshot) (u : Int) :
    u ∈ snapKeys snap ↔ ∃ b, (u, b) ∈ snap := by
  constructor
  · intro hu
    simp only [snapKeys, List.mem_toFinset, List.mem_map] at hu
    obtain ⟨p, hp, rfl⟩ := hu
    exact ⟨p.2, hp⟩
  · intro ⟨b, hb⟩
    simp only [snapKeys, List.mem_toFinset, List.mem_map]
    exact ⟨(u, b), hb, rfl⟩

lemma access_sync_sets_restore_mem (chat_id last_chat_id : Int)
    (last current : Snapshot) (u : Int)
    (hu : u ∈ (access_sync_sets chat_id last_chat_id last current).2) :
    (u, true) ∈ current := by
  by_cases hf : chat_id = last_chat_id
  · simp only [access_sync_sets, hf, ne_eq, not_true_eq_false, if_false,
      List.mem_toFinset, List.mem_map, List.mem_filter] at hu
    obtain ⟨p, ⟨hp, hcond⟩, rfl⟩ := hu
    have h2 : p.2 = true := by
      simp only [Bool.and_eq_true] at hcond
      exact hcond.1
    obtain ⟨p1, p2⟩ := p
    simp only at h2
    rw [h2] at hp
    exact hp
  · simp only [access_sync_sets, ne_eq, hf, not_false_eq_true, if_true,
      List.mem_toFinset, List.mem_map, List.mem_filter] at hu
    obtain ⟨p, ⟨hp, hcond⟩, rfl⟩ := hu
    obtain ⟨p1, p2⟩ := p
    simp only at hcond
    rw [hcond] at hp
    exact hp

lemma access_sync_sets_revoke_mem (chat_id last_chat_id : Int)
    (last current : Snapshot) (u : Int)
    (hu : u ∈ (access_sync_sets chat_id last_chat_id last current).1) :
    (u, false) ∈ current ∨ (u ∈ snapKeys last ∧ u ∉ snapKeys current) := by
  by_cases hf : chat_id = last_chat_id
  · simp only [access_sync_sets, hf, ne_eq, not_true_eq_false, if_false,
      Finset.mem_union, Finset.mem_sdiff, List.mem_toFinset, List.mem_map,
      List.mem_filter] at hu
    rcases hu with ⟨p, ⟨hp, hcond⟩, rfl⟩ | ⟨hl, hc⟩
    · left
      have h2 : p.2 = false := by
        simp only [Bool.and_eq_true] at hcond
        simpa using hcond.1
      obtain ⟨p1, p2⟩ := p
      simp only at h2
      rw [h2] at hp
      exact hp
    · right
      exact ⟨hl, hc⟩
  · simp only [access_sync_sets, ne_eq, hf, not_false_eq_true, if_true,
      Finset.mem_union, Finset.mem_sdiff, List.mem_toFinset, List.mem_map,
      List.mem_filter] at hu
    rcases hu with ⟨p, ⟨hp, hcond⟩, rfl⟩ | ⟨hl, hc⟩
    · left
      have h2 : p.2 = false := by simpa using hcond
      obtain ⟨p1, p2⟩ := p
      simp only at h2
      rw [h2] at hp
      exact hp
    · right
      exact ⟨hl, hc⟩

/-- Claim C3: for every reconciliation pass, the revoke set and the
restore set are disjoint, and their union only contains identities of
the current or the previous snapshot.  The disjointness uses that a
snapshot is a dict: its keys are unique. -/
theorem spec2proof_c3 (chat_id last_chat_id : Int) (last current : Snapshot)
    (h : (current.map Prod.fst).Nodup) :
    Disjoint (access_sync_sets chat_id last_chat_id last current).1
        (access_sync_sets chat_id last_chat_id last current).2
      ∧ (access_sync_sets chat_id last_chat_id last current).1 ∪
          (access_sync_sets chat_id last_chat_id last current).2 ⊆
        snapKeys current ∪ snapKeys last := by
  constructor
  · rw [Finset.disjoint_left]
    intro u hu hv
    have h2 := access_sync_sets_restore_mem chat_id last_chat_id last current u hv
    rcases access_sync_sets_revoke_mem chat_id last_chat_id last current u hu with
      h1 | ⟨_, hnc⟩
    · exact absurd (snapshot_value_unique current h u false true h1 h2) (by simp)
    · exact hnc ((snapKeys_mem current u).mpr ⟨true, h2⟩)
  · intro u hu
    rcases Finset.mem_union.mp hu with hu | hu
    · rcases access_sync_sets_revoke_mem chat_id last_chat_id last current u hu with
        h1 | ⟨hl, _⟩
      · exact Finset.mem_union_left _ ((snapKeys_mem current u).mpr ⟨false, h1⟩)
      · exact Finset.mem_union_right _ hl
    · exact Finset.mem_union_left _
        ((snapKeys_mem current u).mpr
          ⟨true, access_sync_sets_restore_mem chat_id last_chat_id last current u hu⟩)

/-- Witness for spec2proof_c3 at a concrete snapshot pair. -/
theorem spec2proof_c3_witness :
    Disjoint (access_sync_sets 5 5 [(1, true), (2, false)] [(1, false), (3, true)]).1
        (access_sync_sets 5 5 [(1, true), (2, false)] [(1, false), (3, true)]).2
      ∧ (access_sync_sets 5 5 [(1, true), (2, false)] [(1, false), (3, true)]).1 ∪
          (access_sync_sets 5 5 [(1, true), (2, false)] [(1, false), (3, true)]).2 ⊆
        snapKeys [(1, false), (3, true)] ∪ snapKeys [(1, true), (2, false)] :=
  spec2proof_c3 5 5 [(1, true), (2, false)] [(1, false), (3, true)] (by decide)

/-- Claim C7: over any run of listener-loop iterations, the dispatch
signal and the access signal are each raised exactly once per successful
connect attempt (an iteration whose connection was not alive and whose
connect succeeded), and never by a failed connect attempt or an
iteration whose connection was still alive. -/
theorem spec2proof_c7 (st : ListenerState) (trace : List (Bool × Bool)) :
    (review_listener_run st trace).2.1 =
        trace.countP (fun p => !p.1 && p.2)
      ∧ (review_listener_run st trace).2.2 =
        trace.countP (fun p => !p.1 && p.2) := by
  induction trace generalizing st with
  | nil => exact ⟨rfl, rfl⟩
  | cons p rest ih =>
    obtain ⟨alive, ok⟩ := p
    obtain ⟨h1, h2⟩ := ih (review_listener_iteration st alive ok).1
    constructor
    · have hc : (review_listener_run st ((alive, ok) :: rest)).2.1 =
          (review_listener_iteration st alive ok).2.1 +
            (review_listener_run (review_listener_iteration st alive ok).1 rest).2.1 := rfl
      rw [hc, h1, List.countP_cons]
      cases alive <;> cases ok <;> simp [review_listener_iteration]
      all_goals omega
    · have hc : (review_listener_run st ((alive, ok) :: rest)).2.2 =
          (review_listener_iteration st alive ok).2.2 +
            (review_listener_run (review_listener_iteration st alive ok).1 rest).2.2 := rfl
      rw [hc, h2, List.countP_cons]
      cases alive <;> cases ok <;> simp [review_listener_iteration]
      all_goals omega

/-- Claim C8: when no destination channel is configured (the stored chat
id is empty, non-numeric or zero, i.e. parse_chat_id returns none), both
dispatch passes return zero dispatched, leave the store untouched and
take no observable step, for any fetched batch and any store state. -/
theorem spec2proof_c8 (raw : PyStr) (pending : List FetchedReview)
    (db : ReviewDb) (send : SendOracle) (h : parse_chat_id raw = none) :
    dispatch_pending_deposit_reviews raw pending db send = ⟨0, db, []⟩
      ∧ dispatch_pending_kyc_reviews raw pending db send = ⟨0, db, []⟩ := by
  unfold dispatch_pending_deposit_reviews dispatch_pending_kyc_reviews
  rw [h]
  exact ⟨rfl, rfl⟩

lemma hash33_aux_lt (seed : PyStr) :
    ∀ acc, acc < 9000000 →
      seed.foldl (fun h ch => (h * 33 + ch.toNat) % 9000000) acc < 9000000 := by
  induction seed with
  | nil => intro acc h; simpa using h
  | cons c cs ih =>
    intro acc _
    simpa using ih ((acc * 33 + c.toNat) % 9000000) (Nat.mod_lt _ (by norm_num))

lemma local_ticket_seed_number_range (seed : PyStr) :
    1000000 ≤ local_ticket_seed_number seed ∧ local_ticket_seed_number seed < 9000000 := by
  unfold local_ticket_seed_number
  have h := hash33_aux_lt seed 0 (by norm_num)
  dsimp only
  split_ifs with hlt <;> omega

lemma normalize_value_range (value : Int) (seed : PyStr) :
    1000000 ≤ normalize_value value seed ∧ normalize_value value seed < 10000000 := by
  unfold normalize_value
  have h := local_ticket_seed_number_range seed
  dsimp only
  split_ifs <;> omega

lemma natDigitsLE_eq_digits : ∀ fuel n, n ≤ fuel → natDigitsLE fuel n = Nat.digits 10 n := by
  intro fuel
  induction fuel with
  | zero =>
    intro n hn
    have h0 : n = 0 := Nat.le_zero.mp hn
    subst h0
    simp [natDigitsLE]
  | succ f ih =>
    intro n hn
    match n with
    | 0 => simp [natDigitsLE]
    | m + 1 =>
      rw [show natDigitsLE (f + 1) (m + 1) =
        ((m + 1) % 10) :: natDigitsLE f ((m + 1) / 10) from rfl]
      rw [Nat.digits_def' (by norm_num : (1 : Nat) < 10) (Nat.succ_pos m)]
      congr 1
      apply ih
      have := Nat.div_lt_self (Nat.succ_pos m) (by norm_num : 1 < 10)
      omega

lemma natDecimal_eq_digits (n : Nat) :
    natDecimal n = if n = 0 then ['0'] else ((Nat.digits 10 n).map Nat.digitChar).reverse := by
  unfold natDecimal
  rw [natDigitsLE_eq_digits n n le_rfl]

lemma digitChar_props : ∀ d : Nat, d < 10 →
    (Nat.digitChar d).isDigit = true ∧ isPySpace (Nat.digitChar d) = false ∧
      Nat.digitChar d ≠ ':' ∧ Nat.digitChar d ≠ '-' ∧ Nat.digitChar d ≠ '+' ∧
      (Nat.digitChar d).toNat - 48 = d := by
  decide

lemma natDecimal_length (n : Nat) (h1 : 1000000 ≤ n) (h2 : n < 10000000) :
    (natDecimal n).length = 7 := by
  rw [natDecimal_eq_digits, if_neg (by omega)]
  rw [List.length_reverse, List.length_map]
  rw [Nat.digits_len 10 n (by norm_num) (by omega)]
  have hp6 : (10 : Nat) ^ 6 = 1000000 := by norm_num
  have hp7 : (10 : Nat) ^ 7 = 10000000 := by norm_num
  have hlog : Nat.log 10 n = 6 :=
    Nat.log_eq_of_pow_le_of_lt_pow (by omega) (by omega)
  omega

lemma natDecimal_mem (n : Nat) :
    ∀ c ∈ natDecimal n,
      c.isDigit = true ∧ isPySpace c = false ∧ c ≠ ':' ∧ c ≠ '-' ∧ c ≠ '+' := by
  intro c hc
  rw [natDecimal_eq_digits] at hc
  by_cases h : n = 0
  · rw [if_pos h] at hc
    simp only [List.mem_singleton] at hc
    subst hc
    decide
  · rw [if_neg h, List.mem_reverse] at hc
    obtain ⟨d, hd, rfl⟩ := List.mem_map.mp hc
    have hdlt : d < 10 := Nat.digits_lt_base (by norm_num) hd
    have hp := digitChar_props d hdlt
    exact ⟨hp.1, hp.2.1, hp.2.2.1, hp.2.2.2.1, hp.2.2.2.2.1⟩

lemma letter_char_range : ∀ x : Nat, x < 26 →
    'a' ≤ Char.ofNat (97 + x) ∧ Char.ofNat (97 + x) ≤ 'z' := by
  decide

lemma local_ticket_seed_letters_spec (seed : PyStr) :
    (local_ticket_seed_letters seed).length = 2 ∧
      ∀ c ∈ local_ticket_seed_letters seed, 'a' ≤ c ∧ c ≤ 'z' := by
  unfold local_ticket_seed_letters
  dsimp only
  refine ⟨rfl, ?_⟩
  intro c hc
  rcases List.mem_cons.mp hc with h1 | h1
  · subst h1
    exact letter_char_range _ (Nat.mod_lt _ (by norm_num))
  · rcases List.mem_cons.mp h1 with h2 | h2
    · subst h2
      exact letter_char_range _ (Nat.mod_lt _ (by norm_num))
    · cases h2

lemma normalize_local_ticket_number_spec (value : Int) (seed : PyStr) :
    normalize_local_ticket_number value seed = natDecimal (normalize_value value seed) ∧
      (normalize_local_ticket_number value seed).length = 7 ∧
      ∀ c ∈ normalize_local_ticket_number value seed, c.isDigit = true := by
  have hr := normalize_value_range value seed
  have hlen := natDecimal_length _ hr.1 hr.2
  have heq : normalize_local_ticket_number value seed =
      natDecimal (normalize_value value seed) := by
    unfold normalize_local_ticket_number zfill
    rw [hlen]
    simp
  refine ⟨heq, ?_, ?_⟩
  · rw [heq, hlen]
  · rw [heq]
    intro c hc
    exact (natDecimal_mem _ c hc).1

/-- Claim C5: the ticket formatters are deterministic, total, and always
return a non-empty string of length exactly prefix length plus nine,
composed of the fixed kind prefix, exactly seven digits, and exactly two
lowercase letters. -/
theorem spec2proof_c5 (t u : Int) (rid sid : PyStr) (h₁ : t = u) (h₂ : rid = sid) :
    (format_deposit_ticket t rid = format_deposit_ticket u sid
        ∧ format_kyc_ticket t rid = format_kyc_ticket u sid)
      ∧ format_deposit_ticket t rid ≠ []
      ∧ format_kyc_ticket t rid ≠ []
      ∧ (format_deposit_ticket t rid).length = "BXdep".toList.length + 9
      ∧ (format_kyc_ticket t rid).length = "BXkyc".toList.length + 9
      ∧ (∃ ds ls, format_deposit_ticket t rid = "BXdep".toList ++ ds ++ ls
          ∧ ds.length = 7 ∧ (∀ c ∈ ds, c.isDigit = true)
          ∧ ls.length = 2 ∧ ∀ c ∈ ls, 'a' ≤ c ∧ c ≤ 'z')
      ∧ (∃ ds ls, format_kyc_ticket t rid = "BXkyc".toList ++ ds ++ ls
          ∧ ds.length = 7 ∧ (∀ c ∈ ds, c.isDigit = true)
          ∧ ls.length = 2 ∧ ∀ c ∈ ls, 'a' ≤ c ∧ c ≤ 'z') := by
  subst h₁
  subst h₂
  obtain ⟨-, hdl, hdm⟩ := normalize_local_ticket_number_spec t rid
  obtain ⟨hl1, hm1⟩ := local_ticket_seed_letters_spec
    ("real_deposit:".toList ++ intDecimal t ++ ":".toList ++ rid)
  obtain ⟨hl2, hm2⟩ := local_ticket_seed_letters_spec
    ("kyc:".toList ++ intDecimal t ++ ":".toList ++ rid)
  have hp5 : ("BXdep".toList : PyStr).length = 5 := by decide
  have hk5 : ("BXkyc".toList : PyStr).length = 5 := by decide
  have hdep : (format_deposit_ticket t rid).length = "BXdep".toList.length + 9 := by
    unfold format_deposit_ticket
    dsimp only
    simp only [List.length_append, hdl, hl1]
  have hkyc : (format_kyc_ticket t rid).length = "BXkyc".toList.length + 9 := by
    unfold format_kyc_ticket
    dsimp only
    simp only [List.length_append, hdl, hl2]
  refine ⟨⟨rfl, rfl⟩, ?_, ?_, hdep, hkyc, ?_, ?_⟩
  · intro h0
    rw [h0] at hdep
    rw [hp5] at hdep
    exact absurd hdep.symm (by decide)
  · intro h0
    rw [h0] at hkyc
    rw [hk5] at hkyc
    exact absurd hkyc.symm (by decide)
  · exact ⟨_, _, rfl, hdl, hdm, hl1, hm1⟩
  · exact ⟨_, _, rfl, hdl, hdm, hl2, hm2⟩

/-- Witness for spec2proof_c5 at a concrete ticket. -/
theorem spec2proof_c5_witness :
    (format_deposit_ticket 3 "r7".toList).length = "BXdep".toList.length + 9 :=
  (spec2proof_c5 3 3 "r7".toList "r7".toList rfl rfl).2.2.2.1

/-- Witness for spec2proof_c8 at a concrete unconfigured chat id. -/
theorem spec2proof_c8_witness :
    dispatch_pending_deposit_reviews "0".toList
        [⟨"r1".toList, 1, [1], "p.bin".toList⟩] [] (fun _ => none) = ⟨0, [], []⟩
      ∧ dispatch_pending_kyc_reviews "0".toList
        [⟨"r1".toList, 1, [1], "p.bin".toList⟩] [] (fun _ => none) = ⟨0, [], []⟩ :=
  spec2proof_c8 "0".toList [⟨"r1".toList, 1, [1], "p.bin".toList⟩] [] (fun _ => none)
    (by decide)

/-- Claim C9: an item whose payload blob is empty is skipped by the
per-item loop of either dispatch pass without being published and without
a claim attempt: the store is left untouched by that item and the rest of
the batch is processed exactly as if the item were absent, with only a
skip event recorded. -/
theorem spec2proof_c9 (send : SendOracle) (db : ReviewDb) (req : FetchedReview)
    (rest : List FetchedReview) (h : req.proof_blob = []) :
    dispatch_deposit_items send db (req :: rest) =
        ⟨(dispatch_deposit_items send db rest).dispatched,
         (dispatch_deposit_items send db rest).db,
         (if pyStrip req.id = [] then DispatchEvent.skippedEmptyId
          else DispatchEvent.skippedEmptyBlob (pyStrip req.id)) ::
           (dispatch_deposit_items send db rest).events⟩
      ∧ dispatch_kyc_items send db (req :: rest) =
        ⟨(dispatch_kyc_items send db rest).dispatched,
         (dispatch_kyc_items send db rest).db,
         (if pyStrip req.id = [] then DispatchEvent.skippedEmptyId
          else DispatchEvent.skippedEmptyBlob (pyStrip req.id)) ::
           (dispatch_kyc_items send db rest).events⟩ := by
  by_cases hid : pyStrip req.id = [] <;>
    constructor <;>
      simp [dispatch_deposit_items, dispatch_kyc_items, hid, h]

/-- Witness for spec2proof_c9 at a concrete empty-blob item. -/
theorem spec2proof_c9_witness :
    dispatch_deposit_items (fun _ => none) []
        [⟨"r1".toList, 1, [], "p.bin".toList⟩] =
        ⟨(dispatch_deposit_items (fun _ => none) [] ([] : List FetchedReview)).dispatched,
         (dispatch_deposit_items (fun _ => none) [] ([] : List FetchedReview)).db,
         (if pyStrip "r1".toList = [] then DispatchEvent.skippedEmptyId
          else DispatchEvent.skippedEmptyBlob (pyStrip "r1".toList)) ::
           (dispatch_deposit_items (fun _ => none) [] ([] : List FetchedReview)).events⟩
      ∧ dispatch_kyc_items (fun _ => none) []
        [⟨"r1".toList, 1, [], "p.bin".toList⟩] =
        ⟨(dispatch_kyc_items (fun _ => none) [] ([] : List FetchedReview)).dispatched,
         (dispatch_kyc_items (fun _ => none) [] ([] : List FetchedReview)).db,
         (if pyStrip "r1".toList = [] then DispatchEvent.skippedEmptyId
          else DispatchEvent.skippedEmptyBlob (pyStrip "r1".toList)) ::
           (dispatch_kyc_items (fun _ => none) [] ([] : List FetchedReview)).events⟩ :=
  spec2proof_c9 (fun _ => none) [] ⟨"r1".toList, 1, [], "p.bin".toList⟩ [] rfl

lemma dbSetDispatched_cons (p : PyStr × ReviewRequestState) (ps : ReviewDb)
    (rid : PyStr) (c m : Int) :
    dbSetDispatched (p :: ps) rid c m =
      (if p.1 = rid then
        (p.1, { p.2 with review_message_chat_id := some c, review_message_id := some m })
       else p) :: dbSetDispatched ps rid c m := rfl

lemma dbLookup_dbSetDispatched (db : ReviewDb) (rid rid2 : PyStr) (c m : Int) :
    dbLookup (dbSetDispatched db rid c m) rid2 =
      if rid2 = rid then
        (dbLookup db rid).map fun row =>
          { row with review_message_chat_id := some c, review_message_id := some m }
      else dbLookup db rid2 := by
  induction db with
  | nil =>
    simp only [dbSetDispatched, List.map_nil, dbLookup, Option.map_none]
    split_ifs <;> rfl
  | cons p ps ih =>
    obtain ⟨k, row⟩ := p
    rw [dbSetDispatched_cons]
    by_cases h1 : k = rid
    · subst h1
      by_cases h2 : rid2 = k
      · subst h2
        simp [dbLookup]
      · simp [dbLookup, h2, Ne.symm h2, ih]
    · by_cases h2 : rid2 = k
      · subst h2
        simp [dbLookup, h1, Ne.symm h1, ih]
      · simp [dbLookup, h1, Ne.symm h2, ih]

lemma claimable_iff_mark (db : ReviewDb) (rid : PyStr) (c m : Int) :
    (mark_deposit_review_dispatched db rid c m).1 = true ↔ claimable db rid := by
  unfold mark_deposit_review_dispatched claimable
  cases h : dbLookup db rid with
  | none => simp
  | some row =>
    dsimp only
    by_cases hc : row.status = "pending".toList ∧ row.review_message_id = none
    · rw [if_pos hc]
      constructor
      · intro _
        exact ⟨row, rfl, hc.1, hc.2⟩
      · intro _
        rfl
    · rw [if_neg hc]
      constructor
      · intro hh
        exact Bool.noConfusion hh
      · rintro ⟨row2, hr2, hA, hB⟩
        injection hr2 with hr2e
        subst hr2e
        exact absurd ⟨hA, hB⟩ hc

lemma mark_fail_db (db : ReviewDb) (rid : PyStr) (c m : Int)
    (h : (mark_deposit_review_dispatched db rid c m).1 = false) :
    (mark_deposit_review_dispatched db rid c m).2 = db := by
  unfold mark_deposit_review_dispatched at h ⊢
  cases hl : dbLookup db rid with
  | none => rfl
  | some row =>
    rw [hl] at h
    dsimp only at h ⊢
    by_cases hc : row.status = "pending".toList ∧ row.review_message_id = none
    · rw [if_pos hc] at h
      exact Bool.noConfusion h
    · rw [if_neg hc]

lemma mark_success_db (db : ReviewDb) (rid : PyStr) (c m : Int)
    (h : (mark_deposit_review_dispatched db rid c m).1 = true) :
    (mark_deposit_review_dispatched db rid c m).2 = dbSetDispatched db rid c m := by
  unfold mark_deposit_review_dispatched at h ⊢
  cases hl : dbLookup db rid with
  | none =>
    rw [hl] at h
    exact Bool.noConfusion h
  | some row =>
    rw [hl] at h
    dsimp only at h ⊢
    by_cases hc : row.status = "pending".toList ∧ row.review_message_id = none
    · rw [if_pos hc]
    · rw [if_neg hc] at h
      exact Bool.noConfusion h

lemma success_not_claimable (db : ReviewDb) (rid : PyStr) (c m : Int)
    (h : (mark_deposit_review_dispatched db rid c m).1 = true) :
    ¬ claimable (mark_deposit_review_dispatched db rid c m).2 rid := by
  obtain ⟨row, hrow, -, -⟩ := (claimable_iff_mark db rid c m).mp h
  rw [mark_success_db db rid c m h]
  rintro ⟨row2, hrow2, -, hmid2⟩
  rw [dbLookup_dbSetDispatched, if_pos rfl, hrow] at hrow2
  simp only [Option.map_some', Option.some.injEq] at hrow2
  rw [← hrow2] at hmid2
  cases hmid2

lemma not_claimable_preserved (db : ReviewDb) (rid rid2 : PyStr) (c m : Int)
    (h : ¬ claimable db rid) :
    ¬ claimable (mark_deposit_review_dispatched db rid2 c m).2 rid := by
  cases hb : (mark_deposit_review_dispatched db rid2 c m).1
  · rw [mark_fail_db db rid2 c m hb]
    exact h
  · by_cases he : rid2 = rid
    · subst he
      exact absurd ((claimable_iff_mark db rid2 c m).mp hb) h
    · rw [mark_success_db db rid2 c m hb]
      rintro ⟨row, hrow, hst, hmid⟩
      rw [dbLookup_dbSetDispatched, if_neg (fun hh => he hh.symm)] at hrow
      exact h ⟨row, hrow, hst, hmid⟩

lemma items_no_claimOk (send : SendOracle) (rid : PyStr) :
    ∀ (l : List FetchedReview) (db : ReviewDb), ¬ claimable db rid →
      (dispatch_deposit_items send db l).events.countP (isClaimOkFor rid) = 0 := by
  intro l
  induction l with
  | nil =>
    intro db _
    simp [dispatch_deposit_items]
  | cons req rest ih =>
    intro db h
    by_cases hid : pyStrip req.id = []
    · simpa [dispatch_deposit_items, hid, List.countP_cons, isClaimOkFor] using ih db h
    · by_cases hblob : req.proof_blob = []
      · simpa [dispatch_deposit_items, hid, hblob, List.countP_cons, isClaimOkFor]
          using ih db h
      · rcases hs : send req with - | ⟨c, m⟩
        · simpa [dispatch_deposit_items, hid, hblob, hs, List.countP_cons, isClaimOkFor]
            using ih db h
        · cases hb : (mark_deposit_review_dispatched db (pyStrip req.id) c m).1
          · simpa [dispatch_deposit_items, hid, hblob, hs, hb, List.countP_cons,
              isClaimOkFor] using ih _ (not_claimable_preserved db rid (pyStrip req.id) c m h)
          · have he : pyStrip req.id ≠ rid := by
              intro hh
              exact h (hh ▸ (claimable_iff_mark db (pyStrip req.id) c m).mp hb)
            have hne : (pyStrip req.id == rid) = false := by simp [he]
            simpa [dispatch_deposit_items, hid, hblob, hs, hb, List.countP_cons,
              isClaimOkFor, hne]
              using ih _ (not_claimable_preserved db rid (pyStrip req.id) c m h)

lemma items_claimOk_le_one (send : SendOracle) (rid : PyStr) :
    ∀ (l : List FetchedReview) (db : ReviewDb),
      (dispatch_deposit_items send db l).events.countP (isClaimOkFor rid) ≤ 1 := by
  intro l
  induction l with
  | nil =>
    intro db
    simp [dispatch_deposit_items]
  | cons req rest ih =>
    intro db
    by_cases hid : pyStrip req.id = []
    · simpa [dispatch_deposit_items, hid, List.countP_cons, isClaimOkFor] using ih db
    · by_cases hblob : req.proof_blob = []
      · simpa [dispatch_deposit_items, hid, hblob, List.countP_cons, isClaimOkFor]
          using ih db
      · rcases hs : send req with - | ⟨c, m⟩
        · simpa [dispatch_deposit_items, hid, hblob, hs, List.countP_cons, isClaimOkFor]
            using ih db
        · cases hb : (mark_deposit_review_dispatched db (pyStrip req.id) c m).1
          · simpa [dispatch_deposit_items, hid, hblob, hs, hb, List.countP_cons,
              isClaimOkFor] using ih _
          · by_cases he : pyStrip req.id = rid
            · have hnc : ¬ claimable
                  (mark_deposit_review_dispatched db (pyStrip req.id) c m).2 rid := by
                intro hcl
                exact success_not_claimable db (pyStrip req.id) c m hb (he.symm ▸ hcl)
              have h0 := items_no_claimOk send rid rest
                (mark_deposit_review_dispatched db (pyStrip req.id) c m).2 hnc
              have hbe : (pyStrip req.id == rid) = true := by simp [he]
              simp [dispatch_deposit_items, hid, hblob, hs, hb, List.countP_cons,
                isClaimOkFor, hbe, h0]
            · have hne : (pyStrip req.id == rid) = false := by simp [he]
              simpa [dispatch_deposit_items, hid, hblob, hs, hb, List.countP_cons,
                isClaimOkFor, hne] using ih _

lemma items_dispatched_eq_count (send : SendOracle) :
    ∀ (l : List FetchedReview) (db : ReviewDb),
      (dispatch_deposit_items send db l).dispatched =
        (dispatch_deposit_items send db l).events.countP DispatchEvent.isClaimOk := by
  intro l
  induction l with
  | nil =>
    intro db
    simp [dispatch_deposit_items]
  | cons req rest ih =>
    intro db
    by_cases hid : pyStrip req.id = []
    · simpa [dispatch_deposit_items, hid, List.countP_cons, DispatchEvent.isClaimOk]
        using ih db
    · by_cases hblob : req.proof_blob = []
      · simpa [dispatch_deposit_items, hid, hblob, List.countP_cons,
          DispatchEvent.isClaimOk] using ih db
      · rcases hs : send req with - | ⟨c, m⟩
        · simpa [dispatch_deposit_items, hid, hblob, hs, List.countP_cons,
            DispatchEvent.isClaimOk] using ih db
        · cases hb : (mark_deposit_review_dispatched db (pyStrip req.id) c m).1
          · simpa [dispatch_deposit_items, hid, hblob, hs, hb, List.countP_cons,
              DispatchEvent.isClaimOk] using ih _
          · simpa [dispatch_deposit_items, hid, hblob, hs, hb, List.countP_cons,
              DispatchEvent.isClaimOk] using ih _

/-- Claim C1: the dispatched counter of a deposit dispatch pass counts
exactly the items whose conditional claim update reported success (a
failed claim is recorded as a skip and not counted, and the pass
continues); the claim update succeeds exactly when the row still has
status pending and a NULL review_message_id; and within a pass at most
one successful claim event exists per request id. -/
theorem spec2proof_c1 (deposit_chat_raw : PyStr) (pending : List FetchedReview)
    (db : ReviewDb) (send : SendOracle) :
    ((dispatch_pending_deposit_reviews deposit_chat_raw pending db send).dispatched =
        (dispatch_pending_deposit_reviews deposit_chat_raw pending db send).events.countP
          DispatchEvent.isClaimOk)
      ∧ (∀ (db₀ : ReviewDb) (rid : PyStr) (c m : Int),
          (mark_deposit_review_dispatched db₀ rid c m).1 = true ↔
            ∃ row, dbLookup db₀ rid = some row ∧ row.status = "pending".toList ∧
              row.review_message_id = none)
      ∧ ∀ rid : PyStr,
          (dispatch_pending_deposit_reviews deposit_chat_raw pending db send).events.countP
            (isClaimOkFor rid) ≤ 1 := by
  refine ⟨?_, ?_, ?_⟩
  · unfold dispatch_pending_deposit_reviews
    rcases hp : parse_chat_id deposit_chat_raw with - | cid
    · rfl
    · by_cases hpend : pending = []
      · simp [hpend]
      · simp [hpend, items_dispatched_eq_count]
  · intro db₀ rid c m
    exact claimable_iff_mark db₀ rid c m
  · intro rid
    unfold dispatch_pending_deposit_reviews
    rcases hp : parse_chat_id deposit_chat_raw with - | cid
    · simp
    · by_cases hpend : pending = []
      · simp [hpend]
      · simp [hpend, items_claimOk_le_one]

lemma dropWhile_eq_self_of_forall (p : Char → Bool) (l : PyStr)
    (h : ∀ c ∈ l, p c = false) : l.dropWhile p = l := by
  cases l with
  | nil => rfl
  | cons a as =>
    rw [List.dropWhile_cons, h a (List.mem_cons_self a as)]
    simp

lemma pyStrip_eq_self (cs : PyStr) (h : ∀ c ∈ cs, isPySpace c = false) :
    pyStrip cs = cs := by
  unfold pyStrip
  rw [dropWhile_eq_self_of_forall _ _ h]
  rw [dropWhile_eq_self_of_forall _ _ (fun c hc => h c (List.mem_reverse.mp hc))]
  exact List.reverse_reverse cs

lemma intDecimal_forall (i : Int) :
    ∀ c ∈ intDecimal i, isPySpace c = false ∧ c ≠ ':' := by
  intro c hc
  unfold intDecimal at hc
  split_ifs at hc with hneg
  · rcases List.mem_cons.mp hc with h1 | h1
    · subst h1
      exact ⟨by decide, by decide⟩
    · have hp := natDecimal_mem _ c h1
      exact ⟨hp.2.1, hp.2.2.1⟩
  · have hp := natDecimal_mem _ c hc
    exact ⟨hp.2.1, hp.2.2.1⟩

lemma natDecimal_ne_nil (n : Nat) : natDecimal n ≠ [] := by
  rw [natDecimal_eq_digits]
  split_ifs with h
  · simp
  · simp [Nat.digits_ne_nil_iff_ne_zero, h]

lemma parseDigitsNat_natDecimal (n : Nat) : parseDigitsNat (natDecimal n) = some n := by
  by_cases h : n = 0
  · subst h
    decide
  · rw [natDecimal_eq_digits, if_neg h]
    unfold parseDigitsNat
    have hne : (((Nat.digits 10 n).map Nat.digitChar).reverse : PyStr) ≠ [] := by
      simp [Nat.digits_ne_nil_iff_ne_zero, h]
    have hall : (((Nat.digits 10 n).map Nat.digitChar).reverse).all Char.isDigit = true := by
      rw [List.all_eq_true]
      intro c hc
      rw [List.mem_reverse] at hc
      obtain ⟨d, hd, rfl⟩ := List.mem_map.mp hc
      exact (digitChar_props d (Nat.digits_lt_base (by norm_num) hd)).1
    rw [if_pos ⟨hne, hall⟩]
    have hmap : ((((Nat.digits 10 n).map Nat.digitChar).reverse.map
        fun c => c.toNat - 48).reverse : List Nat) = Nat.digits 10 n := by
      rw [← List.map_reverse, List.reverse_reverse, List.map_map]
      have hpt : ∀ d ∈ Nat.digits 10 n,
          ((fun c => c.toNat - 48) ∘ Nat.digitChar) d = d := by
        intro d hd
        exact (digitChar_props d (Nat.digits_lt_base (by norm_num) hd)).2.2.2.2.2
      rw [List.map_congr_left hpt]
      exact List.map_id _
    rw [hmap, Nat.ofDigits_digits]

lemma pyParseInt_intDecimal (i : Int) : pyParseInt (intDecimal i) = some i := by
  unfold pyParseInt
  rw [pyStrip_eq_self _ (fun c hc => (intDecimal_forall i c hc).1)]
  by_cases hneg : i < 0
  · rw [show intDecimal i = '-' :: natDecimal i.natAbs from by
      unfold intDecimal
      rw [if_pos hneg]]
    dsimp only
    rw [if_pos rfl, parseDigitsNat_natDecimal]
    show some (-(i.natAbs : Int)) = some i
    congr 1
    omega
  · obtain ⟨c, rest, hcr⟩ : ∃ c rest, natDecimal i.natAbs = c :: rest := by
      cases hnd : natDecimal i.natAbs with
      | nil => exact absurd hnd (natDecimal_ne_nil _)
      | cons c rest => exact ⟨c, rest, rfl⟩
    have hid : intDecimal i = c :: rest := by
      unfold intDecimal
      rw [if_neg hneg, hcr]
    have hcmem : c ∈ natDecimal i.natAbs := by
      rw [hcr]
      exact List.mem_cons_self c rest
    have hprops := natDecimal_mem _ c hcmem
    rw [hid]
    dsimp only
    rw [if_neg hprops.2.2.2.1, if_neg hprops.2.2.2.2, ← hcr, parseDigitsNat_natDecimal]
    show some ((i.natAbs : Int)) = some i
    congr 1
    omega

lemma splitChar_cons (sep c : Char) (cs : PyStr) :
    splitChar sep (c :: cs) =
      if c = sep then [] :: splitChar sep cs
      else
        match splitChar sep cs with
        | [] => [[c]]
        | p :: ps => (c :: p) :: ps := rfl

lemma splitChar_of_not_mem (sep : Char) (l : PyStr) (h : sep ∉ l) :
    splitChar sep l = [l] := by
  induction l with
  | nil => rfl
  | cons c cs ih =>
    have hcs : sep ∉ cs := fun hh => h (List.mem_cons_of_mem c hh)
    have hc : ¬ c = sep := fun hh => h (hh ▸ List.mem_cons_self c cs)
    rw [splitChar_cons, if_neg hc, ih hcs]

lemma splitChar_append (sep : Char) (l r : PyStr) (h : sep ∉ l) :
    splitChar sep (l ++ sep :: r) = l :: splitChar sep r := by
  induction l with
  | nil =>
    show splitChar sep (sep :: r) = [] :: splitChar sep r
    rw [splitChar_cons, if_pos rfl]
  | cons c cs ih =>
    have hcs : sep ∉ cs := fun hh => h (List.mem_cons_of_mem c hh)
    have hc : ¬ c = sep := fun hh => h (hh ▸ List.mem_cons_self c cs)
    rw [List.cons_append, splitChar_cons, if_neg hc, ih hcs]

lemma splitChar_five (p0 p1 p2 p3 p4 : PyStr)
    (h0 : ':' ∉ p0) (h1 : ':' ∉ p1) (h2 : ':' ∉ p2) (h3 : ':' ∉ p3) (h4 : ':' ∉ p4) :
    splitChar ':' (p0 ++ ':' :: (p1 ++ ':' :: (p2 ++ ':' :: (p3 ++ ':' :: p4)))) =
      [p0, p1, p2, p3, p4] := by
  rw [splitChar_append _ _ _ h0, splitChar_append _ _ _ h1, splitChar_append _ _ _ h2,
    splitChar_append _ _ _ h3, splitChar_of_not_mem _ _ h4]

lemma nospace_cat (l r : PyStr) (hl : ∀ c ∈ l, isPySpace c = false)
    (hr : ∀ c ∈ r, isPySpace c = false) : ∀ c ∈ l ++ r, isPySpace c = false := by
  intro c hc
  rcases List.mem_append.mp hc with h | h
  · exact hl c h
  · exact hr c h

lemma panel_roundtrip_core (as ks : PyStr) (tid safe : Int)
    (hasC : ':' ∉ as) (hksC : ':' ∉ ks)
    (hasS : pyLower (pyStrip as) = as) (hksS : pyLower (pyStrip ks) = ks)
    (haOk : as = "rg".toList ∨ as = "dl".toList)
    (hkOk : ks = "o".toList ∨ ks = "a".toList)
    (hsafe : 60 ≤ safe)
    (hasN : ∀ c ∈ as, isPySpace c = false) (hksN : ∀ c ∈ ks, isPySpace c = false) :
    parse_panel_action_callback
        ("pt:".toList ++ as ++ ":".toList ++ ks ++ ":".toList ++
          intDecimal tid ++ ":".toList ++ intDecimal safe) =
      some (if as = "rg".toList then "regen".toList else "delete".toList,
            if ks = "o".toList then "owner".toList else "admin".toList,
            tid, safe) := by
  have hnospace : ∀ c ∈ ("pt:".toList ++ as ++ ":".toList ++ ks ++ ":".toList ++
      intDecimal tid ++ ":".toList ++ intDecimal safe), isPySpace c = false :=
    nospace_cat _ _
      (nospace_cat _ _
        (nospace_cat _ _
          (nospace_cat _ _
            (nospace_cat _ _
              (nospace_cat _ _
                (nospace_cat _ _ (by decide) hasN)
                (by decide))
              hksN)
            (by decide))
          (fun c hc => (intDecimal_forall tid c hc).1))
        (by decide))
      (fun c hc => (intDecimal_forall safe c hc).1)
  have hassoc : ("pt:".toList ++ as ++ ":".toList ++ ks ++ ":".toList ++
      intDecimal tid ++ ":".toList ++ intDecimal safe : PyStr) =
      "pt".toList ++ ':' :: (as ++ ':' :: (ks ++ ':' ::
        (intDecimal tid ++ ':' :: intDecimal safe))) := by
    simp [List.append_assoc]
  have hsplit : splitChar ':' ("pt:".toList ++ as ++ ":".toList ++ ks ++ ":".toList ++
      intDecimal tid ++ ":".toList ++ intDecimal safe) =
      ["pt".toList, as, ks, intDecimal tid, intDecimal safe] := by
    rw [hassoc]
    exact splitChar_five _ _ _ _ _ (by decide) hasC hksC
      (fun hc => absurd rfl (intDecimal_forall tid ':' hc).2)
      (fun hc => absurd rfl (intDecimal_forall safe ':' hc).2)
  unfold parse_panel_action_callback
  rw [pyStrip_eq_self _ hnospace, hsplit]
  dsimp only
  rw [if_pos rfl, hasS, hksS, pyParseInt_intDecimal, pyParseInt_intDecimal]
  dsimp only
  rw [if_pos haOk, if_pos hkOk, max_eq_right hsafe]

/-- Claim C10: parsing the encoded panel callback round-trips for both
actions and both token types and every integer telegram id: the returned
duration is the input for durations of at least 60 seconds, is clamped
to 60 for durations strictly between 0 and 60, and defaults to 3600 for
a zero duration. -/
theorem spec2proof_c10 (action token_type : PyStr) (telegram_id duration_seconds : Int)
    (ha : action = "regen".toList ∨ action = "delete".toList)
    (hk : token_type = "owner".toList ∨ token_type = "admin".toList) :
    parse_panel_action_callback
        (panel_action_callback action token_type telegram_id duration_seconds) =
      some (action, token_type, telegram_id,
        if duration_seconds = 0 then 3600
        else if duration_seconds < 60 then 60 else duration_seconds) := by
  unfold panel_action_callback
  have hsafe : 60 ≤ max 60 (if duration_seconds = 0 then 3600 else duration_seconds) :=
    le_max_left _ _
  have hfinal : max 60 (if duration_seconds = 0 then 3600 else duration_seconds) =
      if duration_seconds = 0 then 3600
      else if duration_seconds < 60 then 60 else duration_seconds := by
    split_ifs <;> omega
  dsimp only
  rcases ha with rfl | rfl <;> rcases hk with rfl | rfl
  · rw [if_pos rfl, if_pos rfl,
      panel_roundtrip_core "rg".toList "o".toList telegram_id _ (by decide) (by decide)
        (by decide) (by decide) (Or.inl rfl) (Or.inl rfl) hsafe (by decide) (by decide),
      if_pos rfl, if_pos rfl, hfinal]
  · rw [if_pos rfl, if_neg (by decide),
      panel_roundtrip_core "rg".toList "a".toList telegram_id _ (by decide) (by decide)
        (by decide) (by decide) (Or.inl rfl) (Or.inr rfl) hsafe (by decide) (by decide),
      if_pos rfl, if_neg (by decide), hfinal]
  · rw [if_neg (by decide), if_pos rfl,
      panel_roundtrip_core "dl".toList "o".toList telegram_id _ (by decide) (by decide)
        (by decide) (by decide) (Or.inr rfl) (Or.inl rfl) hsafe (by decide) (by decide),
      if_neg (by decide), if_pos rfl, hfinal]
  · rw [if_neg (by decide), if_neg (by decide),
      panel_roundtrip_core "dl".toList "a".toList telegram_id _ (by decide) (by decide)
        (by decide) (by decide) (Or.inr rfl) (Or.inr rfl) hsafe (by decide) (by decide),
      if_neg (by decide), if_neg (by decide), hfinal]

/-- Witness for spec2proof_c10 at a concrete callback. -/
theorem spec2proof_c10_witness :
    parse_panel_action_callback
        (panel_action_callback "regen".toList "owner".toList 42 120) =
      some ("regen".toList, "owner".toList, 42, 120) := by
  have h := spec2proof_c10 "regen".toList "owner".toList 42 120 (Or.inl rfl) (Or.inl rfl)
  simpa using h

end TradeBot
